import Mathlib

/-
Shallow embedding of the `dev` tool (src/main.rs, src/cli.rs, src/error.rs):
an encrypted per-environment secret store with decrypt / edit / export /
exec-with-environment operations, plus project `start` / `check` / `run`
commands.

External effects (subprocess spawns, filesystem state) are modelled
explicitly: each operation takes the outcomes of the I/O steps it can
observe as oracle inputs and returns, alongside its result, the list of
subprocesses it spawned and the final state of the backing encrypted file.
A Rust `panic!` / `.unwrap()` on an `Err` is modelled as `Option.none` in
the operation's result type: the process aborts and no `AppError` is
reported.
-/

namespace Dev

/-- Models `std::io::Error` (opaque payload: a numeric identity). -/
structure IOErr where
  code : Nat
deriving DecidableEq, Repr

/-- Models `std::process::Output` together with its `ExitStatus`:
`status` is the exit code (`success()` is `status == 0`), and `stdout` /
`stderr` are the captured streams (assumed valid UTF-8, as the source
decodes them with `from_utf8(...).unwrap()` / `from_utf8_lossy`). -/
structure ProcOutput where
  status : Int
  stdout : String
  stderr : String
deriving DecidableEq, Repr

/-- `ExitStatus::success()`. -/
def ProcOutput.success (o : ProcOutput) : Bool :=
  o.status == 0

/-- `CommandError` from src/error.rs (the copy in src/main.rs is identical):
a subprocess either failed to spawn or ran and exited unsuccessfully,
optionally with captured standard error. -/
inductive CommandError where
  | spawnError (e : IOErr)
  | failedError (status : Int) (stderr : Option String)
deriving DecidableEq, Repr

/-- Models `toml::de::Error` (diagnostic text only). -/
structure TomlParseError where
  msg : String
deriving DecidableEq, Repr

/-- `AppError`: the union of the variants of src/main.rs's `AppError` and
src/error.rs's `AppError` that the embedded operations produce. Both
sources name the decrypt variant `AgeDecryptError`; the embedding uses the
src/main.rs payload (`CommandError`), since the decrypt implementation in
src/ (EnvironmentConfig::decrypt) is the subprocess-based one. -/
inductive AppError where
  | gitError (c : CommandError)
  | ageDecryptError (c : CommandError)
  | ageEncryptError (c : CommandError)
  | checksumError (c : CommandError)
  | editorError (c : CommandError)
  | configParseError (e : TomlParseError)
  | runError (command : List String) (c : CommandError)
  | configMissing (setting : String)
deriving DecidableEq, Repr

/-- The subprocesses the embedded operations can spawn (the git
repo-root lookup is outside the modelled operations). `spawn` is a
captured-mode child process (`Command::status` / `Command::output`);
`exec` is the replacing-mode `CommandExt::exec`. -/
inductive Proc where
  | ageDecrypt
  | ageEncrypt
  | sha256sum
  | editor
  | spawn (program : String) (args : List String)
  | exec (program : String) (args : List String)
deriving DecidableEq, Repr

/-- Models `toml::Value` restricted to the variants the environment files
use (Float and Datetime are omitted: no embedded operation or claim
touches them). A table is an association list in the map's iteration
order (`toml::map::Map` is key-sorted; examples below keep their keys
sorted). -/
inductive TomlValue where
  | str (s : String)
  | int (n : Int)
  | bool (b : Bool)
  | arr (xs : List TomlValue)
  | table (kvs : List (String × TomlValue))

/-- TOML basic-string escaping for one character, as toml_edit renders a
default (basic, quoted) string. -/
def tomlEscapeChar (c : Char) : String :=
  if c = '"' then "\\\""
  else if c = '\\' then "\\\\"
  else if c = '\n' then "\\n"
  else if c = '\r' then "\\r"
  else if c = '\t' then "\\t"
  else String.singleton c

mutual

/-- Models `Display for toml::Value` (toml 0.8: `ser::ValueSerializer`),
which renders the value in inline TOML syntax: quoted strings, bare
integers and booleans, `[v1, v2]` arrays and `\x7b k = v, ... \x7d`
inline tables (`\x7b\x7d` when empty). This is the `value.to_string()`
used by `Commands::run_command` in src/main.rs for non-string values. -/
def tomlValueDisplay : TomlValue → String
  | .str s => "\"" ++ String.join (s.data.map tomlEscapeChar) ++ "\""
  | .int n => toString n
  | .bool b => if b then "true" else "false"
  | .arr xs => "[" ++ String.intercalate ", " (tomlValueDisplayList xs) ++ "]"
  | .table [] => "\x7b\x7d"
  | .table kvs => "\x7b " ++ String.intercalate ", " (tomlValueDisplayTable kvs) ++ " \x7d"

def tomlValueDisplayList : List TomlValue → List String
  | [] => []
  | x :: xs => tomlValueDisplay x :: tomlValueDisplayList xs

def tomlValueDisplayTable : List (String × TomlValue) → List String
  | [] => []
  | kv :: kvs => (kv.1 ++ " = " ++ tomlValueDisplay kv.2) :: tomlValueDisplayTable kvs

end

/-- Hexadecimal digit. -/
def hexDigit (n : Nat) : Char :=
  if n < 10 then Char.ofNat (48 + n) else Char.ofNat (87 + (n - 10))

/-- JSON string escaping for one character, as serde_json renders it:
short escapes for the common control characters, `\u00XX` for the rest
below 0x20. -/
def jsonEscapeChar (c : Char) : String :=
  if c = '"' then "\\\""
  else if c = '\\' then "\\\\"
  else if c = '\n' then "\\n"
  else if c = '\r' then "\\r"
  else if c = '\t' then "\\t"
  else if c = Char.ofNat 8 then "\\b"
  else if c = Char.ofNat 12 then "\\f"
  else if c.toNat < 32 then
    "\\u00" ++ String.singleton (hexDigit (c.toNat / 16)) ++ String.singleton (hexDigit (c.toNat % 16))
  else String.singleton c

/-- serde_json string rendering. -/
def jsonString (s : String) : String :=
  "\"" ++ String.join (s.data.map jsonEscapeChar) ++ "\""

mutual

/-- Models `serde_json::to_string` applied to a `toml::Value` (compact
JSON, object keys in the map's iteration order). Used by the Docker
export formatter for non-string values. -/
def jsonEncode : TomlValue → String
  | .str s => jsonString s
  | .int n => toString n
  | .bool b => if b then "true" else "false"
  | .arr xs => "[" ++ String.intercalate "," (jsonEncodeList xs) ++ "]"
  | .table kvs => "\x7b" ++ String.intercalate "," (jsonEncodeTable kvs) ++ "\x7d"

def jsonEncodeList : List TomlValue → List String
  | [] => []
  | x :: xs => jsonEncode x :: jsonEncodeList xs

def jsonEncodeTable : List (String × TomlValue) → List String
  | [] => []
  | kv :: kvs => (jsonString kv.1 ++ ":" ++ jsonEncode kv.2) :: jsonEncodeTable kvs

end

/-! ### A TOML-subset parser

Models `toml::from_str::<HashMap<String, Value>>` on the fragment of TOML
the environment files use: blank lines, `#` comment lines, and
`key = value` assignments where the value is a quoted string (without
escape sequences), an integer, a boolean, an array, or an inline table.
Dotted keys, `[section]` headers, floats, datetimes and string escapes
are outside the modelled fragment. Duplicate keys are a parse error, as
in TOML. The result is an association list in file order (the source
returns a map; no theorem below depends on the order of a non-empty
result). -/

/-- Leading spaces and tabs removed. -/
def skipSpaces : List Char → List Char
  | [] => []
  | c :: cs => if c = ' ' || c = '\t' then skipSpaces cs else c :: cs

/-- Characters allowed in a TOML bare key. -/
def isBareKeyChar (c : Char) : Bool :=
  c.isAlphanum || c = '_' || c = '-'

/-- Body of a basic string: everything up to the closing quote. -/
def takeStringChars : List Char → Option (List Char × List Char)
  | [] => none
  | c :: cs =>
    if c = '"' then some ([], cs)
    else (takeStringChars cs).map (fun p => (c :: p.1, p.2))

/-- Longest digit run at the front. -/
def takeDigits : List Char → List Char × List Char
  | [] => ([], [])
  | c :: cs =>
    if c.isDigit then
      let p := takeDigits cs
      (c :: p.1, p.2)
    else ([], c :: cs)

/-- Decimal digits to a number. -/
def digitsToNat (ds : List Char) : Nat :=
  ds.foldl (fun n c => n * 10 + (c.toNat - 48)) 0

mutual

/-- One TOML value, with fuel bounding the nesting depth. -/
def parseTomlValue : Nat → List Char → Option (TomlValue × List Char)
  | 0, _ => none
  | fuel + 1, cs0 =>
    match skipSpaces cs0 with
    | [] => none
    | '"' :: rest =>
      match takeStringChars rest with
      | some (body, rest2) => some (.str (String.mk body), rest2)
      | none => none
    | '\x7b' :: rest => parseTomlTableItems fuel rest []
    | '[' :: rest => parseTomlArrayItems fuel rest []
    | 't' :: 'r' :: 'u' :: 'e' :: rest => some (.bool true, rest)
    | 'f' :: 'a' :: 'l' :: 's' :: 'e' :: rest => some (.bool false, rest)
    | '-' :: rest =>
      match takeDigits rest with
      | ([], _) => none
      | (ds, rest2) => some (.int (-(digitsToNat ds : Int)), rest2)
    | c :: rest =>
      if c.isDigit then
        let p := takeDigits (c :: rest)
        some (.int (digitsToNat p.1), p.2)
      else none

/-- Items of an array, after the opening bracket. -/
def parseTomlArrayItems (fuel : Nat) (cs : List Char) (acc : List TomlValue) :
    Option (TomlValue × List Char) :=
  match fuel, skipSpaces cs with
  | _, ']' :: rest => some (.arr acc.reverse, rest)
  | 0, _ => none
  | fuel + 1, cs1 =>
    match parseTomlValue fuel cs1 with
    | none => none
    | some (v, rest) =>
      match skipSpaces rest with
      | ',' :: rest2 => parseTomlArrayItems fuel rest2 (v :: acc)
      | ']' :: rest2 => some (.arr (v :: acc).reverse, rest2)
      | _ => none

/-- Items of an inline table, after the opening brace. -/
def parseTomlTableItems (fuel : Nat) (cs : List Char) (acc : List (String × TomlValue)) :
    Option (TomlValue × List Char) :=
  match fuel, skipSpaces cs with
  | _, '\x7d' :: rest => some (.table acc.reverse, rest)
  | 0, _ => none
  | fuel + 1, cs1 =>
    match cs1.takeWhile isBareKeyChar with
    | [] => none
    | key =>
      match skipSpaces (cs1.drop key.length) with
      | '=' :: rest =>
        match parseTomlValue fuel rest with
        | none => none
        | some (v, rest2) =>
          match skipSpaces rest2 with
          | ',' :: rest3 => parseTomlTableItems fuel rest3 ((String.mk key, v) :: acc)
          | '\x7d' :: rest3 => some (.table ((String.mk key, v) :: acc).reverse, rest3)
          | _ => none
      | _ => none

end

/-- The lines of a character sequence, split on newline (the semantics of
`str::lines` up to a trailing empty line, which the line parser treats as
blank anyway). -/
def splitLines : List Char → List (List Char)
  | [] => [[]]
  | c :: cs =>
    if c = '\n' then [] :: splitLines cs
    else
      match splitLines cs with
      | l :: ls => (c :: l) :: ls
      | [] => [[c]]

/-- One line of the file: `none` on a syntax error, `some none` when the
line holds nothing, `some (some kv)` for an assignment. -/
def parseTomlLine (line : List Char) : Option (Option (String × TomlValue)) :=
  match skipSpaces line with
  | [] => some none
  | '#' :: _ => some none
  | cs =>
    match cs.takeWhile isBareKeyChar with
    | [] => none
    | key =>
      match skipSpaces (cs.drop key.length) with
      | '=' :: rest =>
        match parseTomlValue (line.length + 1) rest with
        | some (v, rest2) =>
          if skipSpaces rest2 = [] then some (some (String.mk key, v)) else none
        | none => none
      | _ => none

/-- `toml::from_str` on a whole file (see the fragment note above). -/
def tomlParse (content : String) : Except TomlParseError (List (String × TomlValue)) :=
  (splitLines content.data).foldlM
    (fun acc line =>
      match parseTomlLine line with
      | none => .error ⟨"invalid line: " ++ String.mk line⟩
      | some none => .ok acc
      | some (some kv) =>
        if (acc.map Prod.fst).contains kv.1 then .error ⟨"duplicate key: " ++ kv.1⟩
        else .ok (acc ++ [kv]))
    []

/-! ### The encrypted environment store (src/main.rs, `EnvironmentConfig`)

The backing encrypted file is modelled as `Option String`: `none` when
the file does not exist, `some c` when it holds ciphertext `c`. -/

/-- The I/O outcomes one `EnvironmentConfig::decrypt` call can observe:
creating the named temporary scratch file, the `std::fs::exists` check,
the `age -d` subprocess, and the plaintext the tool writes into the
scratch file when it succeeds. -/
structure DecryptWorld where
  tempfileOk : Except IOErr Unit
  existsOk : Except IOErr Unit
  run : Except IOErr ProcOutput
  plaintext : String

/-- `EnvironmentConfig::decrypt`. Returns `none` when the source panics
(`NamedTempFile::with_suffix(..).unwrap()` or `std::fs::exists(..).unwrap()`
on an I/O error); otherwise the decrypt result (scratch-file content on
success) and the subprocesses spawned. A missing backing file yields a
fresh empty scratch file with no subprocess; an existing one spawns
`age -d`, whose spawn failure or non-zero exit becomes an
`AgeDecryptError` carrying the captured standard error. -/
def decryptRun (backing : Option String) (w : DecryptWorld) :
    Option (Except AppError String × List Proc) :=
  match w.tempfileOk with
  | .error _ => none
  | .ok () =>
    match w.existsOk with
    | .error _ => none
    | .ok () =>
      match backing with
      | none => some (.ok "", [])
      | some _ =>
        match w.run with
        | .error e => some (.error (.ageDecryptError (.spawnError e)), [.ageDecrypt])
        | .ok out =>
          if out.success then some (.ok w.plaintext, [.ageDecrypt])
          else
            some (.error (.ageDecryptError (.failedError out.status (some out.stderr))),
              [.ageDecrypt])

/-- `EnvironmentConfig::values`: decrypt, read the scratch file, parse it
as TOML. -/
def valuesRun (backing : Option String) (w : DecryptWorld) :
    Option (Except AppError (List (String × TomlValue)) × List Proc) :=
  match decryptRun backing w with
  | none => none
  | some (.error e, ps) => some (.error e, ps)
  | some (.ok content, ps) =>
    match tomlParse content with
    | .ok kvs => some (.ok kvs, ps)
    | .error e => some (.error (.configParseError e), ps)

/-- `str::split_once(" ")` on a character list: the parts before and
after the first space, or `none` when there is no space. -/
def splitOnceSpaceAux : List Char → Option (List Char × List Char)
  | [] => none
  | c :: cs =>
    if c = ' ' then some ([], cs)
    else (splitOnceSpaceAux cs).map (fun p => (c :: p.1, p.2))

/-- `str::split_once(" ")`. -/
def splitOnceSpace (s : String) : Option (String × String) :=
  (splitOnceSpaceAux s.data).map (fun p => (String.mk p.1, String.mk p.2))

/-- `EnvironmentConfig::calculate_checksum`, over the outcome of spawning
`sha256sum`. Returns `none` when the source panics: `split_once(" ")`
is `.unwrap()`ed, so a success output without a space aborts the
process (`from_utf8(..).unwrap()` likewise assumes valid UTF-8, which
the `String` model builds in). -/
def calculateChecksum (run : Except IOErr ProcOutput) :
    Option (Except AppError String × List Proc) :=
  match run with
  | .error e => some (.error (.checksumError (.spawnError e)), [.sha256sum])
  | .ok out =>
    if out.success then
      match splitOnceSpace out.stdout with
      | some p => some (.ok p.1, [.sha256sum])
      | none => none
    else
      some (.error (.checksumError (.failedError out.status (some out.stderr))), [.sha256sum])

/-- `EnvironmentConfig::run_editor`: `bash -c "$EDITOR -- '<path>'"`,
synchronously, keeping only the exit status. -/
def runEditor (status : Except IOErr Int) : Except AppError Unit × List Proc :=
  match status with
  | .error e => (.error (.editorError (.spawnError e)), [.editor])
  | .ok st =>
    if st == 0 then (.ok (), [.editor])
    else (.error (.editorError (.failedError st none)), [.editor])

/-- `EnvironmentConfig::encrypt`: spawn `age -e -a` writing to the backing
path. On success the backing file becomes the fresh ciphertext
`newCipher`; on a spawn failure the tool never ran, so the backing file
is unchanged; after a non-zero exit the on-disk state is whatever the
failed tool left (`failState` — no theorem below depends on it). -/
def encryptRun (run : Except IOErr ProcOutput) (newCipher : String)
    (failState : Option String) (backing : Option String) :
    Except AppError Unit × List Proc × Option String :=
  match run with
  | .error e => (.error (.ageEncryptError (.spawnError e)), [.ageEncrypt], backing)
  | .ok out =>
    if out.success then (.ok (), [.ageEncrypt], some newCipher)
    else (.error (.ageEncryptError (.failedError out.status (some out.stderr))),
      [.ageEncrypt], failState)

/-- The oracle for one `EnvironmentConfig::edit` call: the decrypt step,
the two `sha256sum` runs, the editor exit status and the encrypt step. -/
structure EditWorld where
  decrypt : DecryptWorld
  hashBefore : Except IOErr ProcOutput
  editor : Except IOErr Int
  hashAfter : Except IOErr ProcOutput
  encrypt : Except IOErr ProcOutput
  newCipher : String
  encryptFailState : Option String

/-- `EnvironmentConfig::edit`: decrypt, checksum, run the editor,
checksum again, and re-encrypt only when the two digests differ.
Returns the result, the spawned subprocesses in order, and the final
state of the backing encrypted file (`none` when a step panicked). -/
def editRun (backing : Option String) (w : EditWorld) :
    Option (Except AppError Unit × List Proc × Option String) :=
  match decryptRun backing w.decrypt with
  | none => none
  | some (.error e, ps) => some (.error e, ps, backing)
  | some (.ok _content, ps) =>
    match calculateChecksum w.hashBefore with
    | none => none
    | some (.error e, ps1) => some (.error e, ps ++ ps1, backing)
    | some (.ok oldHash, ps1) =>
      match runEditor w.editor with
      | (.error e, ps2) => some (.error e, ps ++ ps1 ++ ps2, backing)
      | (.ok (), ps2) =>
        match calculateChecksum w.hashAfter with
        | none => none
        | some (.error e, ps3) => some (.error e, ps ++ ps1 ++ ps2 ++ ps3, backing)
        | some (.ok newHash, ps3) =>
          if oldHash ≠ newHash then
            match encryptRun w.encrypt w.newCipher w.encryptFailState backing with
            | (r, ps4, st) => some (r, ps ++ ps1 ++ ps2 ++ ps3 ++ ps4, st)
          else
            some (.ok (), ps ++ ps1 ++ ps2 ++ ps3, backing)

/-! ### Project command configuration and the cli.rs commands

The `Repo` type that loads `.dev/config.toml` is declared outside src/;
src/cli.rs pins the shape it uses: `repo.config.commands` is optional and
holds optional `start`, `shell` and `checks` entries, `checks` iterated
in declaration order. -/

/-- The `commands` section of the project config, as src/cli.rs reads it.
`checks` is an association list in declaration order. -/
structure CommandsConfig where
  start : Option String
  shell : Option String
  checks : Option (List (String × String))

/-- The project config: an optional `commands` section. -/
structure ProjectConfig where
  commands : Option CommandsConfig

/-- The declared `commands.start` entry, if any. -/
def optStart (cfg : ProjectConfig) : Option String :=
  cfg.commands.bind (fun c => c.start)

/-- The declared `commands.shell` entry, if any. -/
def optShell (cfg : ProjectConfig) : Option String :=
  cfg.commands.bind (fun c => c.shell)

/-- The declared `commands.checks` entries, if any. -/
def optChecks (cfg : ProjectConfig) : Option (List (String × String)) :=
  cfg.commands.bind (fun c => c.checks)

/-- `StartCommand::run` (src/cli.rs): exec `bash -ce <start>` when
`commands.start` is declared, else a `ConfigMissing` error. The `.ok`
result stands for the process image being replaced; the event list
records the exec. -/
def startCommandRun (cfg : ProjectConfig) : Except AppError Unit × List Proc :=
  match cfg.commands with
  | some cmds =>
    match cmds.start with
    | some s => (.ok (), [.exec "bash" ["-ce", s]])
    | none => (.error (.configMissing "commands.start"), [])
  | none => (.error (.configMissing "commands.start"), [])

/-- The `match command.status()` arms inside `CheckCommand::run`. -/
def commandStatusResult : Except IOErr Int → Except CommandError Unit
  | .ok st => if st == 0 then .ok () else .error (.failedError st none)
  | .error e => .error (.spawnError e)

/-- The check loop of `CheckCommand::run`: each check is spawned as
`bash -ce <check>`, in order; the first failure aborts with a `RunError`
naming that check's command line. `oracle i` is the exit outcome of the
i-th spawned check. -/
def runChecksGo (oracle : Nat → Except IOErr Int) :
    List (String × String) → Except AppError Unit × List Proc
  | [] => (.ok (), [])
  | (_name, check) :: rest =>
    match commandStatusResult (oracle 0) with
    | .ok () =>
      let r := runChecksGo (fun i => oracle (i + 1)) rest
      (r.1, Proc.spawn "bash" ["-ce", check] :: r.2)
    | .error e =>
      (.error (.runError ["bash", "-ce", check] e), [Proc.spawn "bash" ["-ce", check]])

/-- `CheckCommand::run` (src/cli.rs): a `ConfigMissing` error when no
`commands.checks` section is declared, else the check loop. -/
def checkCommandRun (cfg : ProjectConfig) (oracle : Nat → Except IOErr Int) :
    Except AppError Unit × List Proc :=
  match cfg.commands with
  | some cmds =>
    match cmds.checks with
    | some checks => runChecksGo oracle checks
    | none => (.error (.configMissing "commands.checks"), [])
  | none => (.error (.configMissing "commands.checks"), [])

/-- The program and argument vector `RunCommand::run` (src/cli.rs) hands
to `environment.exec`: with a declared `commands.shell` the source
inserts, at the front of the argument vector in turn, the command, "--",
the shell expression and "-ce", and execs `bash`; without one it execs
the command directly. -/
def runCommandArgv (cfg : ProjectConfig) (command : String) (args : List String) :
    String × List String :=
  match cfg.commands with
  | some cmds =>
    match cmds.shell with
    | some shell => ("bash", "-ce" :: shell :: "--" :: command :: args)
    | none => (command, args)
  | none => (command, args)

/-- The invocation claim C5 describes, rendered from the spec words: with
a declared shell wrapper, the target command and its arguments joined
into one single shell expression argument at the end of the wrapper
invocation. Written for comparison with `runCommandArgv`, which embeds
the source. -/
def runCommandArgvSpecReading (cfg : ProjectConfig) (command : String)
    (args : List String) : String × List String :=
  match cfg.commands with
  | some cmds =>
    match cmds.shell with
    | some shell => ("bash", ["-ce", shell, "--", String.intercalate " " (command :: args)])
    | none => (command, args)
  | none => (command, args)

/-- `RunCommand::run`: exec the built invocation (the `.ok` result stands
for the process image being replaced). -/
def runCommandRun (cfg : ProjectConfig) (command : String) (args : List String) :
    Except AppError Unit × List Proc :=
  ((.ok (), [Proc.exec (runCommandArgv cfg command args).1 (runCommandArgv cfg command args).2]))

/-! ### Environment materialization (src/main.rs, `Commands::run_command`)
and the Docker export formatter (src/cli.rs, `ConfigExportCommand`). -/

/-- The string placed into the child's environment for one value
(`Commands::run_command`): a `Value::String` passes through unchanged,
every other value is `value.to_string()`, the toml crate's inline TOML
rendering. -/
def envValueString : TomlValue → String
  | .str s => s
  | v => tomlValueDisplay v

/-- `Command::env(key, val)`: map insertion into the child's environment
(the later setting for a key wins, everything else is kept). -/
def envSet (env : List (String × String)) (key val : String) : List (String × String) :=
  (key, val) :: env.filter (fun p => p.1 != key)

/-- The child's environment after `Commands::run_command` sets every
mapping entry over the inherited environment. -/
def materializeEnv (inherited : List (String × String))
    (m : List (String × TomlValue)) : List (String × String) :=
  m.foldl (fun acc kv => envSet acc kv.1 (envValueString kv.2)) inherited

/-- `str::replace("\n", " ")` for the one-character pattern: every
newline becomes a space. -/
def newlineToSpace (s : String) : String :=
  String.mk (s.data.map (fun c => if c = '\n' then ' ' else c))

/-- The value part of one Docker-format line
(`ConfigExportCommand::format_docker`): strings verbatim, everything
else JSON-encoded. -/
def dockerValue : TomlValue → String
  | .str s => s
  | v => jsonEncode v

/-- One `KEY=value` line of the Docker export, before the newline. -/
def dockerLine (key : String) (v : TomlValue) : String :=
  key ++ "=" ++ newlineToSpace (dockerValue v)

/-- `ConfigExportCommand::format_docker`: one `KEY=value` line per
mapping entry, each terminated by a newline. -/
def formatDocker (m : List (String × TomlValue)) : String :=
  String.join (m.map (fun kv => dockerLine kv.1 kv.2 ++ "\n"))

/-! ### Concrete worlds used by the witness theorems -/

/-- A decrypt world where every I/O step succeeds. -/
def okDecryptWorld : DecryptWorld :=
  { tempfileOk := .ok (), existsOk := .ok (), run := .ok ⟨0, "", ""⟩, plaintext := "A = 1\n" }

/-- An edit run in which the editor leaves the content unchanged. -/
def editWorldSame : EditWorld :=
  { decrypt := okDecryptWorld,
    hashBefore := .ok ⟨0, "aaaa  /tmp/env.age.local", ""⟩,
    editor := .ok 0,
    hashAfter := .ok ⟨0, "aaaa  /tmp/env.age.local", ""⟩,
    encrypt := .ok ⟨0, "", ""⟩,
    newCipher := "cipher2",
    encryptFailState := none }

/-- An edit run in which the editor changes the content. -/
def editWorldChanged : EditWorld :=
  { editWorldSame with hashAfter := .ok ⟨0, "bbbb  /tmp/env.age.local", ""⟩ }

/-- An edit run in which the editor exits with status 1. -/
def editWorldEditorFail : EditWorld :=
  { editWorldChanged with editor := .ok 1 }

/-! ### Supporting lemmas -/

/-- Lemma: a decrypt call spawns either nothing or exactly the
decryption tool. -/
theorem decryptRun_events (backing : Option String) (w : DecryptWorld)
    (r : Except AppError String) (ps : List Proc)
    (h : decryptRun backing w = some (r, ps)) :
    ps = [] ∨ ps = [Proc.ageDecrypt] := by
  rcases w with ⟨t, ex, run, pt⟩
  rcases t with e | u
  · simp [decryptRun] at h
  cases u
  rcases ex with e | u
  · simp [decryptRun] at h
  cases u
  rcases backing with _ | c
  · simp [decryptRun] at h
    exact Or.inl h.2
  rcases run with e | out
  · simp [decryptRun] at h
    exact Or.inr h.2.symm
  · by_cases hs : out.success
    · simp [decryptRun, hs] at h
      exact Or.inr h.2.symm
    · simp [decryptRun, hs] at h
      exact Or.inr h.2.symm

/-- Lemma: a decrypt call never spawns the encryption tool. -/
theorem decryptRun_no_encrypt (backing : Option String) (w : DecryptWorld)
    (r : Except AppError String) (ps : List Proc)
    (h : decryptRun backing w = some (r, ps)) : Proc.ageEncrypt ∉ ps := by
  rcases decryptRun_events backing w r ps h with h1 | h1 <;> subst h1 <;> simp

/-- Lemma: when a space occurs in the input, `split_once(" ")` yields the
prefix of characters before the first space. -/
theorem splitOnceSpaceAux_takeWhile (cs : List Char) (h : ' ' ∈ cs) :
    ∃ rest, splitOnceSpaceAux cs = some (cs.takeWhile (fun c => c != ' '), rest) := by
  induction cs with
  | nil => cases h
  | cons c cs ih =>
    by_cases hc : c = ' '
    · subst hc
      exact ⟨cs, by simp [splitOnceSpaceAux, List.takeWhile]⟩
    · have hm : ' ' ∈ cs := by
        rcases List.mem_cons.mp h with h1 | h1
        · exact absurd h1.symm hc
        · exact h1
      rcases ih hm with ⟨rest, hrest⟩
      refine ⟨rest, ?_⟩
      have hb : (c != ' ') = true := bne_iff_ne.mpr hc
      simp [splitOnceSpaceAux, hc, hrest, List.takeWhile, hb]

/-- Lemma: the encrypt step spawns exactly the encryption tool. -/
theorem encryptRun_spawns (run : Except IOErr ProcOutput) (newCipher : String)
    (failState backing : Option String) :
    (encryptRun run newCipher failState backing).2.1 = [Proc.ageEncrypt] := by
  rcases run with e | out
  · rfl
  · by_cases hs : out.success <;> simp [encryptRun, hs]

/-! ### The claims -/

/-- Claim C2: for an environment whose backing encrypted file does not
exist, `decrypt` returns a fresh empty scratch file without spawning any
subprocess, and `values` returns an empty variable mapping, also without
spawning any subprocess. -/
theorem decrypt_missing_environment (w : DecryptWorld)
    (hT : w.tempfileOk = .ok ()) (hE : w.existsOk = .ok ()) :
    decryptRun none w = some (.ok "", []) ∧ valuesRun none w = some (.ok [], []) := by
  have h1 : decryptRun none w = some (.ok "", []) := by
    unfold decryptRun
    rw [hT, hE]
  refine ⟨h1, ?_⟩
  unfold valuesRun
  rw [h1]
  rfl

/-- Witness for C2 at a concrete world. -/
theorem decrypt_missing_environment_witness :
    decryptRun none okDecryptWorld = some (.ok "", [])
    ∧ valuesRun none okDecryptWorld = some (.ok [], []) :=
  decrypt_missing_environment okDecryptWorld rfl rfl

/-- Claim C8: a successful checksum invocation returns exactly the prefix
of the tool's standard output before the first space; a spawn failure is
a `ChecksumError` wrapping the spawn error, and a non-zero exit is a
`ChecksumError` carrying the captured standard error. -/
theorem checksum_digest_before_space (run : Except IOErr ProcOutput) :
    (∀ e, run = .error e →
      calculateChecksum run = some (.error (.checksumError (.spawnError e)), [.sha256sum]))
    ∧ (∀ out, run = .ok out → out.success = false →
      calculateChecksum run =
        some (.error (.checksumError (.failedError out.status (some out.stderr))), [.sha256sum]))
    ∧ (∀ out, run = .ok out → out.success = true → ' ' ∈ out.stdout.data →
      calculateChecksum run =
        some (.ok (String.mk (out.stdout.data.takeWhile (fun c => c != ' '))), [.sha256sum])) := by
  refine ⟨?_, ?_, ?_⟩
  · intro e he
    subst he
    rfl
  · intro out ho hs
    subst ho
    simp [calculateChecksum, hs]
  · intro out ho hs hmem
    subst ho
    rcases splitOnceSpaceAux_takeWhile out.stdout.data hmem with ⟨rest, hr⟩
    simp [calculateChecksum, hs, splitOnceSpace, hr]

/-- Witness for C8: a success run and a spawn failure. -/
theorem checksum_digest_before_space_witness :
    calculateChecksum (.ok ⟨0, "aaaa  f", ""⟩) = some (.ok "aaaa", [.sha256sum])
    ∧ calculateChecksum (.error ⟨7⟩) =
      some (.error (.checksumError (.spawnError ⟨7⟩)), [.sha256sum]) :=
  ⟨(checksum_digest_before_space (.ok ⟨0, "aaaa  f", ""⟩)).2.2 ⟨0, "aaaa  f", ""⟩ rfl rfl
      (by decide),
    (checksum_digest_before_space (.error ⟨7⟩)).1 ⟨7⟩ rfl⟩

/-- Claim C9, counterexample: with an existing backing file, an I/O
failure creating the scratch file makes `decrypt` abort through
`.unwrap()` — no decrypt error distinguishing an I/O failure from a
tool failure is reported. -/
theorem decrypt_scratch_io_panic :
    decryptRun (some "cipher")
      { tempfileOk := .error ⟨3⟩, existsOk := .ok (), run := .ok ⟨0, "", ""⟩, plaintext := "" }
      = none := rfl

/-- Claim C9 as amended: on an existing backing file, a decryption-tool
failure is reported as a decrypt error distinguishing a spawn failure
from a non-zero exit, the latter carrying the captured standard error;
an I/O failure preparing the scratch file is not reported as an error
but aborts the process. -/
theorem decrypt_error_reporting (c : String) (w : DecryptWorld) :
    (w.tempfileOk = .ok () → w.existsOk = .ok () →
      (∀ e, w.run = .error e →
        decryptRun (some c) w = some (.error (.ageDecryptError (.spawnError e)), [.ageDecrypt]))
      ∧ (∀ out, w.run = .ok out → out.success = false →
        decryptRun (some c) w =
          some (.error (.ageDecryptError (.failedError out.status (some out.stderr))),
            [.ageDecrypt])))
    ∧ (∀ e, w.tempfileOk = .error e → decryptRun (some c) w = none) := by
  constructor
  · intro hT hE
    constructor
    · intro e he
      simp [decryptRun, hT, hE, he]
    · intro out ho hs
      simp [decryptRun, hT, hE, ho, hs]
  · intro e he
    simp [decryptRun, he]

/-- Witness for C9 (amended) at concrete worlds: a non-zero tool exit and
a scratch-file I/O failure. -/
theorem decrypt_error_reporting_witness :
    decryptRun (some "c")
      { tempfileOk := .ok (), existsOk := .ok (), run := .ok ⟨1, "", "boom"⟩, plaintext := "" }
      = some (.error (.ageDecryptError (.failedError 1 (some "boom"))), [.ageDecrypt])
    ∧ decryptRun (some "c")
      { tempfileOk := .error ⟨9⟩, existsOk := .ok (), run := .ok ⟨0, "", ""⟩, plaintext := "" }
      = none :=
  ⟨((decrypt_error_reporting "c"
      { tempfileOk := .ok (), existsOk := .ok (), run := .ok ⟨1, "", "boom"⟩,
        plaintext := "" }).1 rfl rfl).2 ⟨1, "", "boom"⟩ rfl rfl,
    (decrypt_error_reporting "c"
      { tempfileOk := .error ⟨9⟩, existsOk := .ok (), run := .ok ⟨0, "", ""⟩,
        plaintext := "" }).2 ⟨9⟩ rfl⟩

/-- Claim C10: when the editor exits with a non-zero status, the edit
operation returns an `EditorError`, never invokes the encryption tool,
and leaves the backing encrypted file unchanged. -/
theorem edit_editor_failure (backing : Option String) (w : EditWorld)
    (content : String) (ps : List Proc) (before : String) (st : Int)
    (hd : decryptRun backing w.decrypt = some (.ok content, ps))
    (hb : calculateChecksum w.hashBefore = some (.ok before, [.sha256sum]))
    (he : w.editor = .ok st) (hne : st ≠ 0) :
    editRun backing w =
      some (.error (.editorError (.failedError st none)),
        ps ++ [.sha256sum] ++ [.editor], backing)
    ∧ Proc.ageEncrypt ∉ ps ++ [.sha256sum] ++ [.editor] := by
  constructor
  · have hre : runEditor w.editor = (.error (.editorError (.failedError st none)), [.editor]) := by
      have hb0 : (st == 0) = false := by simp [hne]
      simp [runEditor, he, hb0]
    unfold editRun
    rw [hd, hb, hre]
  · have hno := decryptRun_no_encrypt backing w.decrypt (.ok content) ps hd
    simpa using hno

/-- Witness for C10 at a concrete world. -/
theorem edit_editor_failure_witness :
    editRun (some "c") editWorldEditorFail =
      some (.error (.editorError (.failedError 1 none)),
        [Proc.ageDecrypt] ++ [.sha256sum] ++ [.editor], some "c")
    ∧ Proc.ageEncrypt ∉ [Proc.ageDecrypt] ++ [Proc.sha256sum] ++ [Proc.editor] :=
  edit_editor_failure (some "c") editWorldEditorFail "A = 1\n" [.ageDecrypt] "aaaa" 1
    rfl rfl rfl (by decide)

/-- Claim C1: an edit whose before and after digests are equal leaves the
backing encrypted file untouched and spawns no encryption subprocess;
one whose digests differ always invokes the encryption tool and, when
that tool succeeds, overwrites the backing file with the fresh
ciphertext. -/
theorem edit_checksum_gate (backing : Option String) (w : EditWorld)
    (content : String) (ps : List Proc) (before after : String)
    (hd : decryptRun backing w.decrypt = some (.ok content, ps))
    (hb : calculateChecksum w.hashBefore = some (.ok before, [.sha256sum]))
    (he : w.editor = .ok 0)
    (ha : calculateChecksum w.hashAfter = some (.ok after, [.sha256sum])) :
    (before = after →
      editRun backing w = some (.ok (), ps ++ [.sha256sum] ++ [.editor] ++ [.sha256sum], backing)
      ∧ Proc.ageEncrypt ∉ ps ++ [.sha256sum] ++ [.editor] ++ [.sha256sum])
    ∧ (before ≠ after →
      (∀ r evs st, editRun backing w = some (r, evs, st) → Proc.ageEncrypt ∈ evs)
      ∧ (∀ out, w.encrypt = .ok out → out.success = true →
        editRun backing w =
          some (.ok (), ps ++ [.sha256sum] ++ [.editor] ++ [.sha256sum] ++ [.ageEncrypt],
            some w.newCipher))) := by
  have hre : runEditor w.editor = (.ok (), [.editor]) := by
    simp [runEditor, he]
  constructor
  · intro heq
    subst heq
    constructor
    · unfold editRun
      rw [hd, hb, hre, ha]
      simp
    · have hno := decryptRun_no_encrypt backing w.decrypt (.ok content) ps hd
      simpa using hno
  · intro hne
    have hmain : editRun backing w =
        some ((encryptRun w.encrypt w.newCipher w.encryptFailState backing).1,
          ps ++ [.sha256sum] ++ [.editor] ++ [.sha256sum]
            ++ (encryptRun w.encrypt w.newCipher w.encryptFailState backing).2.1,
          (encryptRun w.encrypt w.newCipher w.encryptFailState backing).2.2) := by
      unfold editRun
      rw [hd, hb, hre, ha]
      simp [hne]
    constructor
    · intro r evs st hrun
      rw [hmain] at hrun
      have hevs : evs = ps ++ [.sha256sum] ++ [.editor] ++ [.sha256sum]
          ++ (encryptRun w.encrypt w.newCipher w.encryptFailState backing).2.1 := by
        have := Option.some.inj hrun
        exact (congrArg (fun t => t.2.1) this).symm
      rw [hevs, encryptRun_spawns]
      simp
    · intro out hoe hs
      rw [hmain, hoe]
      simp [encryptRun, hs]

/-- Witness for C1 at concrete worlds: one unchanged edit, one changed
edit. -/
theorem edit_checksum_gate_witness :
    editRun (some "c") editWorldSame =
      some (.ok (), [Proc.ageDecrypt] ++ [.sha256sum] ++ [.editor] ++ [.sha256sum], some "c")
    ∧ editRun (some "c") editWorldChanged =
      some (.ok (),
        [Proc.ageDecrypt] ++ [.sha256sum] ++ [.editor] ++ [.sha256sum] ++ [.ageEncrypt],
        some "cipher2") :=
  ⟨((edit_checksum_gate (some "c") editWorldSame "A = 1\n" [.ageDecrypt] "aaaa" "aaaa"
      rfl rfl rfl rfl).1 rfl).1,
    ((edit_checksum_gate (some "c") editWorldChanged "A = 1\n" [.ageDecrypt] "aaaa" "bbbb"
      rfl rfl rfl rfl).2 (by decide)).2 ⟨0, "", ""⟩ rfl rfl⟩

/-- Claim C3: invoking `start` without a declared `commands.start` entry
fails with a `ConfigMissing` error naming exactly "commands.start" and
spawns no subprocess; invoking `check` without a declared
`commands.checks` section fails with a `ConfigMissing` error naming
exactly "commands.checks" and spawns no subprocess. -/
theorem missing_command_config (cfg : ProjectConfig) :
    (optStart cfg = none →
      startCommandRun cfg = (.error (.configMissing "commands.start"), []))
    ∧ (optChecks cfg = none → ∀ oracle,
      checkCommandRun cfg oracle = (.error (.configMissing "commands.checks"), [])) := by
  constructor
  · intro h
    rcases cfg with ⟨cmds⟩
    rcases cmds with _ | ⟨st, sh, ck⟩
    · rfl
    · simp [optStart] at h
      simp [startCommandRun, h]
  · intro h oracle
    rcases cfg with ⟨cmds⟩
    rcases cmds with _ | ⟨st, sh, ck⟩
    · rfl
    · simp [optChecks] at h
      simp [checkCommandRun, h]

/-- Witness for C3: a project config with no commands section at all. -/
theorem missing_command_config_witness :
    startCommandRun ⟨none⟩ = (.error (.configMissing "commands.start"), [])
    ∧ checkCommandRun ⟨none⟩ (fun _ => .ok 0) =
      (.error (.configMissing "commands.checks"), []) :=
  ⟨(missing_command_config ⟨none⟩).1 rfl,
    (missing_command_config ⟨none⟩).2 rfl (fun _ => .ok 0)⟩

/-- Lemma: with a declared checks section, `CheckCommand::run` is the
check loop. -/
theorem checkCommandRun_eq_go (cfg : ProjectConfig) (checks : List (String × String))
    (oracle : Nat → Except IOErr Int) (hc : optChecks cfg = some checks) :
    checkCommandRun cfg oracle = runChecksGo oracle checks := by
  rcases cfg with ⟨cmds⟩
  rcases cmds with _ | ⟨st, sh, ck⟩
  · simp [optChecks] at hc
  · simp [optChecks] at hc
    simp [checkCommandRun, hc]

/-- Lemma: the check loop with all-successful outcomes runs every check
in declaration order and reports success. -/
theorem runChecksGo_all_ok (checks : List (String × String))
    (oracle : Nat → Except IOErr Int)
    (h : ∀ i, i < checks.length → commandStatusResult (oracle i) = .ok ()) :
    runChecksGo oracle checks =
      (.ok (), checks.map (fun c => Proc.spawn "bash" ["-ce", c.2])) := by
  induction checks generalizing oracle with
  | nil => rfl
  | cons hd tl ih =>
    have h0 : commandStatusResult (oracle 0) = .ok () := h 0 (by simp)
    have hrest : ∀ i, i < tl.length → commandStatusResult (oracle (i + 1)) = .ok () :=
      fun i hi => h (i + 1) (by simpa using Nat.succ_lt_succ hi)
    rcases hd with ⟨name, check⟩
    simp [runChecksGo, h0, ih (fun i => oracle (i + 1)) hrest]

/-- Lemma: when the first failing outcome is the k-th, the check loop
stops there: it spawns exactly the first k+1 checks and reports the
k-th check's error. -/
theorem runChecksGo_fail (checks : List (String × String))
    (oracle : Nat → Except IOErr Int) (k : Nat) (hk : k < checks.length)
    (e : CommandError)
    (hok : ∀ i, i < k → commandStatusResult (oracle i) = .ok ())
    (hfail : commandStatusResult (oracle k) = .error e) :
    runChecksGo oracle checks =
      (.error (.runError ["bash", "-ce", (checks.get ⟨k, hk⟩).2] e),
        (checks.take (k + 1)).map (fun c => Proc.spawn "bash" ["-ce", c.2])) := by
  induction checks generalizing oracle k with
  | nil => exact absurd hk (by simp)
  | cons hd tl ih =>
    rcases hd with ⟨name, check⟩
    cases k with
    | zero =>
      simp [runChecksGo, hfail]
    | succ k2 =>
      have h0 : commandStatusResult (oracle 0) = .ok () := hok 0 (Nat.succ_pos _)
      have hk2 : k2 < tl.length := Nat.lt_of_succ_lt_succ hk
      have hok2 : ∀ i, i < k2 → commandStatusResult (oracle (i + 1)) = .ok () :=
        fun i hi => hok (i + 1) (Nat.succ_lt_succ hi)
      have hf2 : commandStatusResult ((fun i => oracle (i + 1)) k2) = .error e := hfail
      simp [runChecksGo, h0, ih (fun i => oracle (i + 1)) k2 hk2 hok2 hf2]

/-- Claim C4: the check operation runs the declared checks sequentially
in declaration order; when the k-th check is the first to fail, the
operation aborts with that check's error and no later check is
invoked (only the first k+1 are spawned); when every check succeeds,
it returns success having spawned them all in order. -/
theorem checks_run_fail_fast (cfg : ProjectConfig) (checks : List (String × String))
    (oracle : Nat → Except IOErr Int) (hc : optChecks cfg = some checks) :
    ((∀ i, i < checks.length → commandStatusResult (oracle i) = .ok ()) →
      checkCommandRun cfg oracle =
        (.ok (), checks.map (fun c => Proc.spawn "bash" ["-ce", c.2])))
    ∧ (∀ (k : Nat) (hk : k < checks.length) (e : CommandError),
      (∀ i, i < k → commandStatusResult (oracle i) = .ok ()) →
      commandStatusResult (oracle k) = .error e →
      checkCommandRun cfg oracle =
        (.error (.runError ["bash", "-ce", (checks.get ⟨k, hk⟩).2] e),
          (checks.take (k + 1)).map (fun c => Proc.spawn "bash" ["-ce", c.2]))) := by
  rw [checkCommandRun_eq_go cfg checks oracle hc]
  exact ⟨runChecksGo_all_ok checks oracle,
    fun k hk e hok hfail => runChecksGo_fail checks oracle k hk e hok hfail⟩

/-- A project config declaring three checks, used by the C4 witness. -/
def threeChecksCfg : ProjectConfig :=
  ⟨some ⟨none, none, some [("fmt", "fmt-cmd"), ("lint", "lint-cmd"), ("test", "test-cmd")]⟩⟩

/-- Witness for C4: three declared checks where the second exits 2 — the
third is never spawned; and the all-success run. -/
theorem checks_run_fail_fast_witness :
    checkCommandRun threeChecksCfg (fun i => if i == 1 then .ok 2 else .ok 0) =
      (.error (.runError ["bash", "-ce", "lint-cmd"] (.failedError 2 none)),
        [Proc.spawn "bash" ["-ce", "fmt-cmd"], Proc.spawn "bash" ["-ce", "lint-cmd"]])
    ∧ checkCommandRun threeChecksCfg (fun _ => .ok 0) =
      (.ok (), [Proc.spawn "bash" ["-ce", "fmt-cmd"], Proc.spawn "bash" ["-ce", "lint-cmd"],
        Proc.spawn "bash" ["-ce", "test-cmd"]]) :=
  ⟨(checks_run_fail_fast threeChecksCfg
      [("fmt", "fmt-cmd"), ("lint", "lint-cmd"), ("test", "test-cmd")]
      (fun i => if i == 1 then .ok 2 else .ok 0) rfl).2 1 (by decide)
      (.failedError 2 none)
      (fun i hi => by
        cases i with
        | zero => rfl
        | succ n => exact absurd hi (by omega)) rfl,
    (checks_run_fail_fast threeChecksCfg
      [("fmt", "fmt-cmd"), ("lint", "lint-cmd"), ("test", "test-cmd")]
      (fun _ => .ok 0) rfl).1 (fun i hi => rfl)⟩

/-- A project config declaring a shell wrapper, used by the C5 theorems. -/
def shellCfg : ProjectConfig :=
  ⟨some ⟨none, some "nix develop -c", none⟩⟩

/-- Claim C5, counterexample: with a declared shell wrapper the built
invocation carries the target command and each of its arguments as
separate trailing arguments after "--"; there is no single
shell-expression argument holding them, so the claim's reading (compare
`runCommandArgvSpecReading`) fails on the concrete run
`echo a b`. -/
theorem run_shell_single_expression_refuted :
    runCommandArgv shellCfg "echo" ["a", "b"]
      = ("bash", ["-ce", "nix develop -c", "--", "echo", "a", "b"])
    ∧ runCommandArgv shellCfg "echo" ["a", "b"]
      ≠ runCommandArgvSpecReading shellCfg "echo" ["a", "b"]
    ∧ ¬ ∃ expr, runCommandArgv shellCfg "echo" ["a", "b"]
      = ("bash", ["-ce", "nix develop -c", "--", expr]) := by
  refine ⟨rfl, by decide, ?_⟩
  rintro ⟨expr, h⟩
  simp [runCommandArgv, shellCfg] at h

/-- Claim C5 as amended: with a declared shell wrapper, run execs `bash`
with "-ce", the wrapper expression and "--", followed by the target
command and each of its arguments as separate arguments (positional
parameters for the wrapper expression) — not exec'd directly; without a
wrapper the command is exec'd directly with its arguments. -/
theorem run_shell_wrapper_argv (cfg : ProjectConfig) (command : String)
    (args : List String) :
    (∀ sh, optShell cfg = some sh →
      runCommandArgv cfg command args = ("bash", "-ce" :: sh :: "--" :: command :: args)
      ∧ runCommandRun cfg command args =
        (.ok (), [Proc.exec "bash" ("-ce" :: sh :: "--" :: command :: args)]))
    ∧ (optShell cfg = none → runCommandArgv cfg command args = (command, args)) := by
  constructor
  · intro sh hsh
    rcases cfg with ⟨cmds⟩
    rcases cmds with _ | ⟨st, shl, ck⟩
    · simp [optShell] at hsh
    · simp [optShell] at hsh
      subst hsh
      exact ⟨rfl, rfl⟩
  · intro hsh
    rcases cfg with ⟨cmds⟩
    rcases cmds with _ | ⟨st, shl, ck⟩
    · rfl
    · simp [optShell] at hsh
      subst hsh
      rfl

/-- Witness for C5 (amended) at the concrete shell config. -/
theorem run_shell_wrapper_argv_witness :
    runCommandArgv shellCfg "echo" ["a", "b"]
      = ("bash", ["-ce", "nix develop -c", "--", "echo", "a", "b"])
    ∧ runCommandRun shellCfg "echo" ["a", "b"]
      = (.ok (), [Proc.exec "bash" ["-ce", "nix develop -c", "--", "echo", "a", "b"]]) :=
  (run_shell_wrapper_argv shellCfg "echo" ["a", "b"]).1 "nix develop -c" rfl

/-- Lemma: lookup of a key distinct from the filtered-out one is
unaffected by the filtering `envSet` performs. -/
theorem lookup_filter_ne (env : List (String × String)) (key k : String)
    (h : k ≠ key) :
    (env.filter (fun p => p.1 != key)).lookup k = env.lookup k := by
  induction env with
  | nil => rfl
  | cons hd tl ih =>
    by_cases hh : hd.1 = key
    · have hk : (k == hd.1) = false := by simp [hh, h]
      have hb : (hd.1 != key) = false := by simp [hh]
      simp [List.filter, hb, List.lookup, hk, ih]
    · have hb : (hd.1 != key) = true := by simp [hh]
      by_cases hk : k = hd.1
      · simp [List.filter, hb, List.lookup, hk]
      · have hk2 : (k == hd.1) = false := by simp [hk]
        simp [List.filter, hb, List.lookup, hk2, ih]

/-- Lemma: `envSet` stores the given value under the given key. -/
theorem lookup_envSet_self (env : List (String × String)) (key val : String) :
    (envSet env key val).lookup key = some val := by
  simp [envSet, List.lookup]

/-- Lemma: `envSet` leaves every other key's value unchanged. -/
theorem lookup_envSet_ne (env : List (String × String)) (key val k : String)
    (h : k ≠ key) :
    (envSet env key val).lookup k = env.lookup k := by
  have hk : (k == key) = false := by simp [h]
  simp [envSet, List.lookup, hk, lookup_filter_ne env key k h]

/-- Lemma: a key absent from an association list looks up to nothing. -/
theorem lookup_eq_none_of_not_mem {α : Type} (l : List (String × α)) (k : String)
    (h : k ∉ l.map Prod.fst) : l.lookup k = none := by
  induction l with
  | nil => rfl
  | cons hd tl ih =>
    have h1 : k ≠ hd.1 := fun he => h (by rw [List.map_cons, he]; exact List.mem_cons_self _ _)
    have h2 : k ∉ tl.map Prod.fst := fun hm => h (by rw [List.map_cons]; exact List.mem_cons_of_mem _ hm)
    have hk : (k == hd.1) = false := by simp [h1]
    simp [List.lookup, hk, ih h2]

/-- Lemma: materializing over an inherited environment leaves keys
outside the mapping untouched. -/
theorem materialize_lookup_none (inh : List (String × String))
    (m : List (String × TomlValue)) (k : String) (h : m.lookup k = none) :
    (materializeEnv inh m).lookup k = inh.lookup k := by
  induction m generalizing inh with
  | nil => rfl
  | cons hd tl ih =>
    by_cases hk : k = hd.1
    · have : (k == hd.1) = true := by simp [hk]
      simp [List.lookup, this] at h
    · have hkb : (k == hd.1) = false := by simp [hk]
      have htl : tl.lookup k = none := by
        simpa [List.lookup, hkb] using h
      calc (materializeEnv inh (hd :: tl)).lookup k
          = (materializeEnv (envSet inh hd.1 (envValueString hd.2)) tl).lookup k := rfl
        _ = (envSet inh hd.1 (envValueString hd.2)).lookup k := ih _ htl
        _ = inh.lookup k := lookup_envSet_ne inh hd.1 _ k hk

/-- Lemma: materializing places each mapping entry's rendered value into
the child environment (keys are unique, as in the source's map). -/
theorem materialize_lookup_mem (inh : List (String × String))
    (m : List (String × TomlValue)) (k : String) (v : TomlValue)
    (hnd : (m.map Prod.fst).Nodup) (hm : m.lookup k = some v) :
    (materializeEnv inh m).lookup k = some (envValueString v) := by
  induction m generalizing inh with
  | nil => cases hm
  | cons hd tl ih =>
    rw [List.map_cons] at hnd
    rcases List.nodup_cons.mp hnd with ⟨hnotin, hnd2⟩
    by_cases hk : k = hd.1
    · have hkb : (k == hd.1) = true := by simp [hk]
      have hv : hd.2 = v := by
        have h2 := hm
        simp [List.lookup, hkb] at h2
        exact h2
      have htl : tl.lookup k = none := by
        rw [hk]
        exact lookup_eq_none_of_not_mem tl hd.1 hnotin
      calc (materializeEnv inh (hd :: tl)).lookup k
          = (materializeEnv (envSet inh hd.1 (envValueString hd.2)) tl).lookup k := rfl
        _ = (envSet inh hd.1 (envValueString hd.2)).lookup k :=
            materialize_lookup_none _ tl k htl
        _ = some (envValueString v) := by
            rw [hk, hv]
            exact lookup_envSet_self inh hd.1 _
    · have hkb : (k == hd.1) = false := by simp [hk]
      have htl : tl.lookup k = some v := by
        simpa [List.lookup, hkb] using hm
      exact ih (envSet inh hd.1 (envValueString hd.2)) hnd2 htl

/-- Claim C6, counterexample: for a nested table the value placed into
the child's environment on the exec path is the toml crate's inline TOML
rendering, not the JSON encoding the claim states. -/
theorem run_env_nested_not_json :
    envValueString (.table [("a", .int 1), ("b", .int 2)]) = "\x7b a = 1, b = 2 \x7d"
    ∧ jsonEncode (.table [("a", .int 1), ("b", .int 2)]) = "\x7b\"a\":1,\"b\":2\x7d"
    ∧ envValueString (.table [("a", .int 1), ("b", .int 2)])
      ≠ jsonEncode (.table [("a", .int 1), ("b", .int 2)]) :=
  ⟨rfl, rfl, by decide⟩

/-- Claim C6 as amended: on the exec path string values pass through
unchanged, numbers and booleans are stringified, and nested structures
are TOML-encoded (the toml crate's inline rendering) before being placed
into the child's environment, which is merged over — not replacing — the
inherited environment. -/
theorem run_env_materialization (inh : List (String × String))
    (m : List (String × TomlValue)) (k : String) (v : TomlValue)
    (hnd : (m.map Prod.fst).Nodup) :
    (m.lookup k = some v →
      (materializeEnv inh m).lookup k = some (envValueString v))
    ∧ (m.lookup k = none →
      (materializeEnv inh m).lookup k = inh.lookup k)
    ∧ (∀ s, envValueString (.str s) = s)
    ∧ (∀ n : Int, envValueString (.int n) = toString n)
    ∧ (∀ b : Bool, envValueString (.bool b) = if b then "true" else "false")
    ∧ (∀ kvs, envValueString (.table kvs) = tomlValueDisplay (.table kvs))
    ∧ (∀ xs, envValueString (.arr xs) = tomlValueDisplay (.arr xs)) :=
  ⟨fun hm => materialize_lookup_mem inh m k v hnd hm,
    fun hm => materialize_lookup_none inh m k hm,
    fun _ => rfl, fun _ => rfl, fun b => by cases b <;> rfl,
    fun _ => rfl, fun _ => rfl⟩

/-- The variable mapping of the spec's worked example. -/
def exampleMapping : List (String × TomlValue) :=
  [("ABC", .int 123), ("TEST", .table [("a", .int 1), ("b", .int 2)])]

/-- Witness for C6 (amended): the example mapping materialized over an
inherited environment — a mapping key is set to its rendered value, an
inherited key survives. -/
theorem run_env_materialization_witness :
    (materializeEnv [("PATH", "/usr/bin")] exampleMapping).lookup "TEST"
      = some "\x7b a = 1, b = 2 \x7d"
    ∧ (materializeEnv [("PATH", "/usr/bin")] exampleMapping).lookup "PATH"
      = some "/usr/bin" :=
  ⟨(run_env_materialization [("PATH", "/usr/bin")] exampleMapping "TEST"
      (.table [("a", .int 1), ("b", .int 2)]) (by decide)).1 rfl,
    (run_env_materialization [("PATH", "/usr/bin")] exampleMapping "PATH"
      (.str "") (by decide)).2.1 rfl⟩

/-- Claim C7: the Docker export writes one `KEY=value` line per variable
with string values verbatim and non-string values JSON-encoded, every
newline in a value replaced by a space; on the example mapping it
produces exactly the lines `ABC=123` and `TEST=\x7b"a":1,"b":2\x7d`. -/
theorem docker_export_format :
    (∀ s, dockerValue (.str s) = s)
    ∧ (∀ v, (∀ s, v ≠ .str s) → dockerValue v = jsonEncode v)
    ∧ (∀ s c, c ∈ (newlineToSpace s).data → c ≠ '\n')
    ∧ (∀ k v, dockerLine k v = k ++ "=" ++ newlineToSpace (dockerValue v))
    ∧ formatDocker exampleMapping = "ABC=123\nTEST=\x7b\"a\":1,\"b\":2\x7d\n" := by
  refine ⟨fun _ => rfl, ?_, ?_, fun _ _ => rfl, rfl⟩
  · intro v hv
    cases v with
    | str s => exact absurd rfl (hv s)
    | int n => rfl
    | bool b => rfl
    | arr xs => rfl
    | table kvs => rfl
  · intro s c hc
    rcases List.mem_map.mp hc with ⟨a, _, ha⟩
    by_cases hn : a = '\n'
    · subst hn
      rw [if_pos rfl] at ha
      subst ha
      decide
    · rw [if_neg hn] at ha
      subst ha
      exact hn

/-- Witness for C7: a non-string value JSON-encoded, and a space produced
by newline replacement. -/
theorem docker_export_format_witness :
    dockerValue (.int 5) = jsonEncode (.int 5) ∧ (' ' : Char) ≠ '\n' :=
  ⟨docker_export_format.2.1 (.int 5) (fun s h => TomlValue.noConfusion h),
    docker_export_format.2.2.1 "a\nb" ' ' (by decide)⟩

end Dev
